import Mathlib

/-!
Shallow embedding of the timer-board engine from `src/src/index.ts`
(equivalently `src/unnamed/part_001`): the `Timer`/`Board` data model,
the pure state engine `applyCommand`/`effectiveElapsed`, and the
storage-facing helpers `emptyBoard`/`boardKey`/`loadBoard`.

Modelling conventions:
  * Millisecond timestamps (`Date.now()`) are integers.  The code stores
    `startedAt`/`createdAt`/`updatedAt` as ISO-8601 strings produced by
    `new Date(now).toISOString()` and reads `startedAt` back with
    `Date.parse`; since `toISOString` keeps millisecond precision this
    round-trip is the identity on the values this code writes, so ISO
    timestamp fields are represented directly by their parsed integer
    value, and `startedAt : string | null` becomes `Option Int`.
  * The untyped JSON request body (`body: any`) is modelled by `Body`:
    `body?.action` is an `Option String` (absent/non-string action never
    compares equal to the action literals, which `none` captures), and
    `body.payload ?? {}` is an `Option Payload` read with
    `Option.getD Payload.empty`.  The numeric payload field `durationMs`
    is a `NumVal` (an integer or NaN) so that the `Number(x) || 0`
    coercion is represented; `Number(undefined)` is NaN, which the
    `toNumber` of an absent field returns.
  * JS truthiness: `label || "Timer"` treats the empty string as falsy
    (`labelOr`); `Number(durationMs) || 0` treats NaN and 0 as falsy
    (`numOrZero`; for the value 0 both branches give 0); `!raw` in
    `loadBoard` is true for an absent value and for the empty string.
  * `applyCommand` reads two ambient values, the clock `Date.now()` and
    `crypto.randomUUID()`; they are passed as the extra parameters
    `now` and `freshId`.
  * The store (`env.TIMERS.get`) and the JSON codec are external
    collaborators; `loadBoard` takes them as function parameters
    `store : String → Option String` (absent key ↦ `none`) and
    `parseBoard : String → Option Board` (a throw of `JSON.parse` ↦
    `none`).
  * In-place mutation of the timer found by `board.timers.find` is
    modelled by rewriting the first matching element of the list
    (`updateFirst`), which is exactly what mutating the object returned
    by `find` does to the array.
-/

namespace Timers

/-- The four states of `Timer.state`. -/
inductive TimerState where
  | idle
  | running
  | paused
  | finished
deriving DecidableEq

/-- The `Timer` interface.  ISO timestamp strings are represented by
their millisecond values (see the module comment). -/
structure Timer where
  id : String
  label : String
  durationMs : Int
  state : TimerState
  createdAt : Int
  updatedAt : Int
  startedAt : Option Int
  elapsedMs : Int
deriving DecidableEq

/-- The `Board` interface. -/
structure Board where
  boardId : String
  timers : List Timer
deriving DecidableEq

/-- A JS numeric value obtained from `Number(...)`: an integer or NaN. -/
inductive NumVal where
  | num (n : Int)
  | nan
deriving DecidableEq

/-- The fields of `body.payload` that the engine reads; each is absent
(`none`) when the JSON object lacks it. -/
structure Payload where
  label : Option String
  durationMs : Option NumVal
  id : Option String
  command : Option String
deriving DecidableEq

/-- The empty object `{}` used for `body.payload ?? {}`. -/
def Payload.empty : Payload :=
  { label := none, durationMs := none, id := none, command := none }

/-- The parsed request body: `body?.action` and `body.payload`. -/
structure Body where
  action : Option String
  payload : Option Payload
deriving DecidableEq

/-- JS `label || "Timer"`: an absent or empty label is falsy. -/
def labelOr (l : Option String) : String :=
  match l with
  | none => "Timer"
  | some s => if s = "" then "Timer" else s

/-- JS `Number(x)` on the payload field: an absent field (`undefined`)
coerces to NaN, a present numeric value to itself. -/
def toNumber (v : Option NumVal) : NumVal :=
  match v with
  | none => .nan
  | some w => w

/-- JS `v || 0` on a number: NaN is falsy and becomes 0; 0 is falsy and
becomes 0, which is the same value. -/
def numOrZero (v : NumVal) : Int :=
  match v with
  | .nan => 0
  | .num n => n

/-- The timer literal built by the `create` branch of `applyCommand`. -/
def createTimer (p : Payload) (now : Int) (freshId : String) : Timer :=
  { id := freshId
    label := labelOr p.label
    durationMs := numOrZero (toNumber p.durationMs)
    state := .idle
    createdAt := now
    updatedAt := now
    startedAt := none
    elapsedMs := 0 }

/-- `effectiveElapsed(timer, nowMs)`: elapsed plus the running stretch
when the timer is running with a resume point, else the stored elapsed. -/
def effectiveElapsed (t : Timer) (nowMs : Int) : Int :=
  match t.state, t.startedAt with
  | .running, some started => t.elapsedMs + (nowMs - started)
  | _, _ => t.elapsedMs

/-- The `if (command === "start")` block of the `command` branch. -/
def startStep (command : Option String) (now : Int) (t : Timer) : Timer :=
  if command = some "start" then
    if t.state = .idle ∨ t.state = .paused then
      { t with startedAt := some now, state := .running }
    else t
  else t

/-- The `if (command === "pause")` block: fires when the timer is
running and `startedAt` is set (truthy). -/
def pauseStep (command : Option String) (now : Int) (t : Timer) : Timer :=
  if command = some "pause" then
    match t.state, t.startedAt with
    | .running, some started =>
        { t with elapsedMs := t.elapsedMs + (now - started)
                 startedAt := none
                 state := .paused }
    | _, _ => t
  else t

/-- The `if (command === "reset")` block: unconditional rewind. -/
def resetStep (command : Option String) (t : Timer) : Timer :=
  if command = some "reset" then
    { t with elapsedMs := 0, startedAt := none, state := .idle }
  else t

/-- The auto-finish check run after every sub-command: when the
effective elapsed time has reached `durationMs`, force `finished` and
clamp `elapsedMs`. -/
def finishCheck (now : Int) (t : Timer) : Timer :=
  if t.durationMs ≤ effectiveElapsed t now then
    { t with state := .finished, startedAt := none, elapsedMs := t.durationMs }
  else t

/-- The whole per-timer body of the `command` branch: the three
sub-command blocks in source order, the auto-finish check, then
`updatedAt = now`. -/
def stepTimer (command : Option String) (now : Int) (t : Timer) : Timer :=
  { finishCheck now (resetStep command (pauseStep command now (startStep command now t))) with
      updatedAt := now }

/-- Rewrite the first element satisfying `p` by `f`; the list analogue
of mutating the object returned by `Array.prototype.find`. -/
def updateFirst (p : Timer → Bool) (f : Timer → Timer) : List Timer → List Timer
  | [] => []
  | t :: ts => if p t then f t :: ts else t :: updateFirst p f ts

/-- `applyCommand(board, body)` with the ambient clock and UUID passed
explicitly.  Branches exactly as the source: `create` appends a fresh
idle timer; `command` finds the timer by id (`undefined` ids match
nothing, `t.id === id`), returns the board unchanged when absent, and
otherwise rewrites the found timer with `stepTimer`; `delete` filters
out timers whose id strictly equals the payload id; anything else is a
no-op. -/
def applyCommand (board : Board) (body : Body) (now : Int) (freshId : String) : Board :=
  if body.action = some "create" then
    { board with
        timers := board.timers ++ [createTimer (body.payload.getD Payload.empty) now freshId] }
  else if body.action = some "command" then
    if (board.timers.find? (fun t => some t.id == (body.payload.getD Payload.empty).id)).isSome then
      { board with
          timers := updateFirst (fun t => some t.id == (body.payload.getD Payload.empty).id)
            (stepTimer (body.payload.getD Payload.empty).command now) board.timers }
    else board
  else if body.action = some "delete" then
    { board with
        timers := board.timers.filter
          (fun t => !(some t.id == (body.payload.getD Payload.empty).id)) }
  else board

/-- `emptyBoard(boardId)`. -/
def emptyBoard (boardId : String) : Board :=
  { boardId := boardId, timers := [] }

/-- `boardKey(boardId)`. -/
def boardKey (boardId : String) : String :=
  "board:" ++ boardId

/-- `loadBoard` over an abstract store and JSON codec: a missing key, a
falsy (empty) stored string, and a parse failure all yield the empty
board. -/
def loadBoard (store : String → Option String) (parseBoard : String → Option Board)
    (boardId : String) : Board :=
  match store (boardKey boardId) with
  | none => emptyBoard boardId
  | some raw =>
      if raw = "" then emptyBoard boardId
      else
        match parseBoard raw with
        | none => emptyBoard boardId
        | some b => b

/-- The spec invariant `state = running ⇔ startedAt ≠ null` for one
timer. -/
def wfTimer (t : Timer) : Prop :=
  t.startedAt.isSome ↔ t.state = .running

instance (t : Timer) : Decidable (wfTimer t) := by
  unfold wfTimer; infer_instance

/-- Boards reachable from the empty board for a fixed `boardId` by
`applyCommand` steps. -/
inductive Reachable (bid : String) : Board → Prop where
  | empty : Reachable bid (emptyBoard bid)
  | step (b : Board) (body : Body) (now : Int) (freshId : String) :
      Reachable bid b → Reachable bid (applyCommand b body now freshId)

/-- A `command` body targeting timer id `i` with sub-command `c`. -/
def cmdBody (i : String) (c : String) : Body :=
  ⟨some "command", some ⟨none, none, some i, some c⟩⟩

/-- Fixture timer for concrete instances. -/
def mkFix (st : TimerState) (dur el : Int) (sa : Option Int) : Timer :=
  { id := "t1", label := "T", durationMs := dur, state := st,
    createdAt := 0, updatedAt := 0, startedAt := sa, elapsedMs := el }

/-! ### Helper lemmas -/

theorem mem_updateFirst {p : Timer → Bool} {f : Timer → Timer} {l : List Timer} {u : Timer}
    (h : u ∈ updateFirst p f l) : u ∈ l ∨ ∃ v ∈ l, u = f v := by
  induction l with
  | nil => simp [updateFirst] at h
  | cons t ts ih =>
      unfold updateFirst at h
      split at h
      · rcases List.mem_cons.mp h with h | h
        · exact Or.inr ⟨t, List.mem_cons_self t ts, h⟩
        · exact Or.inl (List.mem_cons_of_mem t h)
      · rcases List.mem_cons.mp h with h | h
        · exact Or.inl (h ▸ List.mem_cons_self t ts)
        · rcases ih h with h | ⟨v, hv, hu⟩
          · exact Or.inl (List.mem_cons_of_mem t h)
          · exact Or.inr ⟨v, List.mem_cons_of_mem t hv, hu⟩

theorem updateFirst_split (p : Timer → Bool) (f : Timer → Timer)
    (pre : List Timer) (t : Timer) (post : List Timer)
    (hpre : ∀ u ∈ pre, p u = false) (ht : p t = true) :
    updateFirst p f (pre ++ t :: post) = pre ++ f t :: post := by
  induction pre with
  | nil => simp [updateFirst, ht]
  | cons a pr ih =>
      have ha : p a = false := hpre a (List.mem_cons_self a pr)
      simp only [List.cons_append, updateFirst, ha]
      simp only [Bool.false_eq_true, if_false, List.cons.injEq, true_and]
      exact ih fun u hu => hpre u (List.mem_cons_of_mem a hu)

theorem updateFirst_length (p : Timer → Bool) (f : Timer → Timer) (l : List Timer) :
    (updateFirst p f l).length = l.length := by
  induction l with
  | nil => rfl
  | cons t ts ih => unfold updateFirst; split <;> simp [ih]

theorem updateFirst_getD_cases (p : Timer → Bool) (f : Timer → Timer) (l : List Timer)
    (i : Nat) (d : Timer) :
    (updateFirst p f l).getD i d = l.getD i d
      ∨ (updateFirst p f l).getD i d = f (l.getD i d) := by
  induction l generalizing i with
  | nil => exact Or.inl rfl
  | cons t ts ih =>
      unfold updateFirst; split
      · cases i with
        | zero => exact Or.inr rfl
        | succ j => exact Or.inl rfl
      · cases i with
        | zero => exact Or.inl rfl
        | succ j => exact ih j

theorem updateFirst_getD_of_false (p : Timer → Bool) (f : Timer → Timer) (l : List Timer)
    (i : Nat) (d : Timer) (h : p (l.getD i d) = false) :
    (updateFirst p f l).getD i d = l.getD i d := by
  induction l generalizing i with
  | nil => rfl
  | cons t ts ih =>
      unfold updateFirst; split
      · cases i with
        | zero => simp_all
        | succ j => rfl
      · cases i with
        | zero => rfl
        | succ j => exact ih j h

theorem startStep_id (c : Option String) (now : Int) (t : Timer) :
    (startStep c now t).id = t.id := by
  unfold startStep
  split
  · split <;> rfl
  · rfl

theorem pauseStep_id (c : Option String) (now : Int) (t : Timer) :
    (pauseStep c now t).id = t.id := by
  unfold pauseStep
  split
  · split <;> rfl
  · rfl

theorem resetStep_id (c : Option String) (t : Timer) :
    (resetStep c t).id = t.id := by
  unfold resetStep
  split <;> rfl

theorem finishCheck_id (now : Int) (t : Timer) :
    (finishCheck now t).id = t.id := by
  unfold finishCheck
  split <;> rfl

theorem stepTimer_id (c : Option String) (now : Int) (t : Timer) :
    (stepTimer c now t).id = t.id := by
  show (finishCheck now (resetStep c (pauseStep c now (startStep c now t)))).id = t.id
  rw [finishCheck_id, resetStep_id, pauseStep_id, startStep_id]

/-! ### Equation lemmas for the sub-command blocks -/

theorem startStep_of_ne (c : Option String) (now : Int) (t : Timer) (h : c ≠ some "start") :
    startStep c now t = t := by
  unfold startStep
  rw [if_neg h]

theorem startStep_fires (now : Int) (t : Timer) (h : t.state = .idle ∨ t.state = .paused) :
    startStep (some "start") now t = { t with startedAt := some now, state := .running } := by
  unfold startStep
  rw [if_pos rfl, if_pos h]

theorem startStep_stuck (c : Option String) (now : Int) (t : Timer)
    (h : ¬(t.state = .idle ∨ t.state = .paused)) :
    startStep c now t = t := by
  unfold startStep
  by_cases hc : c = some "start"
  · rw [if_pos hc, if_neg h]
  · rw [if_neg hc]

theorem pauseStep_of_ne (c : Option String) (now : Int) (t : Timer) (h : c ≠ some "pause") :
    pauseStep c now t = t := by
  unfold pauseStep
  rw [if_neg h]

theorem pauseStep_fires (now s : Int) (t : Timer)
    (h1 : t.state = .running) (h2 : t.startedAt = some s) :
    pauseStep (some "pause") now t
      = { t with elapsedMs := t.elapsedMs + (now - s), startedAt := none, state := .paused } := by
  unfold pauseStep
  rw [if_pos rfl, h1, h2]

theorem pauseStep_not_running (c : Option String) (now : Int) (t : Timer)
    (h : t.state ≠ .running) :
    pauseStep c now t = t := by
  obtain ⟨i, lb, dm, st, ca, ua, sa, el⟩ := t
  unfold pauseStep
  by_cases hc : c = some "pause"
  · rw [if_pos hc]
    cases st with
    | running => exact absurd rfl h
    | idle => cases sa <;> rfl
    | paused => cases sa <;> rfl
    | finished => cases sa <;> rfl
  · rw [if_neg hc]

theorem resetStep_of_ne (c : Option String) (t : Timer) (h : c ≠ some "reset") :
    resetStep c t = t := by
  unfold resetStep
  rw [if_neg h]

theorem resetStep_fires (t : Timer) :
    resetStep (some "reset") t = { t with elapsedMs := 0, startedAt := none, state := .idle } := by
  unfold resetStep
  rw [if_pos rfl]

theorem finishCheck_fires (now : Int) (t : Timer) (h : t.durationMs ≤ effectiveElapsed t now) :
    finishCheck now t
      = { t with state := .finished, startedAt := none, elapsedMs := t.durationMs } := by
  unfold finishCheck
  rw [if_pos h]

theorem finishCheck_stuck (now : Int) (t : Timer) (h : ¬t.durationMs ≤ effectiveElapsed t now) :
    finishCheck now t = t := by
  unfold finishCheck
  rw [if_neg h]

theorem stepTimer_eq (c : Option String) (now : Int) (t : Timer) :
    stepTimer c now t
      = { finishCheck now (resetStep c (pauseStep c now (startStep c now t))) with
            updatedAt := now } := rfl

/-! ### Branch equations for `applyCommand` -/

theorem applyCommand_create (b : Board) (pl : Option Payload) (now : Int) (fid : String) :
    applyCommand b ⟨some "create", pl⟩ now fid
      = { b with timers := b.timers ++ [createTimer (pl.getD Payload.empty) now fid] } := by
  unfold applyCommand
  rw [if_pos rfl]

theorem applyCommand_command (b : Board) (pl : Option Payload) (now : Int) (fid : String) :
    applyCommand b ⟨some "command", pl⟩ now fid
      = (if (b.timers.find? (fun t => some t.id == (pl.getD Payload.empty).id)).isSome then
          { b with
              timers := updateFirst (fun t => some t.id == (pl.getD Payload.empty).id)
                (stepTimer (pl.getD Payload.empty).command now) b.timers }
        else b) := by
  have hne : (some "command" : Option String) ≠ some "create" := by decide
  unfold applyCommand
  rw [if_neg hne, if_pos rfl]

theorem applyCommand_delete (b : Board) (pl : Option Payload) (now : Int) (fid : String) :
    applyCommand b ⟨some "delete", pl⟩ now fid
      = { b with
          timers := b.timers.filter (fun t => !(some t.id == (pl.getD Payload.empty).id)) } := by
  have hne1 : (some "delete" : Option String) ≠ some "create" := by decide
  have hne2 : (some "delete" : Option String) ≠ some "command" := by decide
  unfold applyCommand
  rw [if_neg hne1, if_neg hne2, if_pos rfl]

theorem applyCommand_other (b : Board) (body : Body) (now : Int) (fid : String)
    (h1 : body.action ≠ some "create") (h2 : body.action ≠ some "command")
    (h3 : body.action ≠ some "delete") :
    applyCommand b body now fid = b := by
  unfold applyCommand
  rw [if_neg h1, if_neg h2, if_neg h3]

theorem applyCommand_cmd_notfound (b : Board) (pl : Option Payload) (now : Int) (fid : String)
    (h : b.timers.find? (fun t => some t.id == (pl.getD Payload.empty).id) = none) :
    applyCommand b ⟨some "command", pl⟩ now fid = b := by
  rw [applyCommand_command, h]
  rfl

theorem applyCommand_cmd_split (b : Board) (pre post : List Timer) (t : Timer)
    (c : Option String) (now : Int) (fid : String)
    (hsplit : b.timers = pre ++ t :: post)
    (hpre : ∀ u ∈ pre, u.id ≠ t.id) :
    applyCommand b ⟨some "command", some ⟨none, none, some t.id, c⟩⟩ now fid
      = { b with timers := pre ++ stepTimer c now t :: post } := by
  rw [applyCommand_command]
  simp only [Option.getD_some]
  have hfind : (b.timers.find? (fun u => some u.id == some t.id)).isSome = true := by
    rw [List.find?_isSome]
    refine ⟨t, ?_, by simp⟩
    rw [hsplit]
    exact List.mem_append_right _ (List.mem_cons_self _ _)
  rw [if_pos hfind, hsplit]
  rw [updateFirst_split _ _ pre t post ?hp ?ht]
  case hp =>
    intro u hu
    simpa using hpre u hu
  case ht => simp

/-! ### Invariant preservation through the sub-command blocks -/

theorem wfTimer_startStep (c : Option String) (now : Int) (t : Timer) (h : wfTimer t) :
    wfTimer (startStep c now t) := by
  by_cases hc : c = some "start"
  · subst hc
    by_cases hs : t.state = .idle ∨ t.state = .paused
    · rw [startStep_fires now t hs]
      simp [wfTimer]
    · rw [startStep_stuck _ _ _ hs]
      exact h
  · rw [startStep_of_ne _ _ _ hc]
    exact h

theorem wfTimer_pauseStep (c : Option String) (now : Int) (t : Timer) (h : wfTimer t) :
    wfTimer (pauseStep c now t) := by
  by_cases hc : c = some "pause"
  · by_cases hr : t.state = .running
    · rcases hsa : t.startedAt with _ | s
      · have heq : pauseStep c now t = t := by
          subst hc
          unfold pauseStep
          rw [if_pos rfl, hr, hsa]
        rw [heq]
        exact h
      · subst hc
        rw [pauseStep_fires now s t hr hsa]
        simp [wfTimer]
    · rw [pauseStep_not_running _ _ _ hr]
      exact h
  · rw [pauseStep_of_ne _ _ _ hc]
    exact h

theorem wfTimer_resetStep (c : Option String) (t : Timer) (h : wfTimer t) :
    wfTimer (resetStep c t) := by
  by_cases hc : c = some "reset"
  · subst hc
    rw [resetStep_fires]
    simp [wfTimer]
  · rw [resetStep_of_ne _ _ hc]
    exact h

theorem wfTimer_finishCheck (now : Int) (t : Timer) (h : wfTimer t) :
    wfTimer (finishCheck now t) := by
  by_cases hf : t.durationMs ≤ effectiveElapsed t now
  · rw [finishCheck_fires _ _ hf]
    simp [wfTimer]
  · rw [finishCheck_stuck _ _ hf]
    exact h

theorem wfTimer_stepTimer (c : Option String) (now : Int) (t : Timer) (h : wfTimer t) :
    wfTimer (stepTimer c now t) :=
  wfTimer_finishCheck _ _ (wfTimer_resetStep _ _ (wfTimer_pauseStep _ _ _ (wfTimer_startStep _ _ _ h)))

/-- The clamp invariant for one timer: a finished timer's `elapsedMs`
equals its `durationMs`. -/
def finishedClamped (t : Timer) : Prop :=
  t.state = .finished → t.elapsedMs = t.durationMs

theorem finishedClamped_startStep (c : Option String) (now : Int) (t : Timer)
    (h : finishedClamped t) : finishedClamped (startStep c now t) := by
  by_cases hc : c = some "start"
  · subst hc
    by_cases hs : t.state = .idle ∨ t.state = .paused
    · rw [startStep_fires now t hs]
      simp [finishedClamped]
    · rw [startStep_stuck _ _ _ hs]
      exact h
  · rw [startStep_of_ne _ _ _ hc]
    exact h

theorem finishedClamped_pauseStep (c : Option String) (now : Int) (t : Timer)
    (h : finishedClamped t) : finishedClamped (pauseStep c now t) := by
  by_cases hc : c = some "pause"
  · by_cases hr : t.state = .running
    · rcases hsa : t.startedAt with _ | s
      · have heq : pauseStep c now t = t := by
          subst hc
          unfold pauseStep
          rw [if_pos rfl, hr, hsa]
        rw [heq]
        exact h
      · subst hc
        rw [pauseStep_fires now s t hr hsa]
        simp [finishedClamped]
    · rw [pauseStep_not_running _ _ _ hr]
      exact h
  · rw [pauseStep_of_ne _ _ _ hc]
    exact h

theorem finishedClamped_resetStep (c : Option String) (t : Timer)
    (h : finishedClamped t) : finishedClamped (resetStep c t) := by
  by_cases hc : c = some "reset"
  · subst hc
    rw [resetStep_fires]
    simp [finishedClamped]
  · rw [resetStep_of_ne _ _ hc]
    exact h

theorem finishedClamped_finishCheck (now : Int) (t : Timer)
    (h : finishedClamped t) : finishedClamped (finishCheck now t) := by
  by_cases hf : t.durationMs ≤ effectiveElapsed t now
  · rw [finishCheck_fires _ _ hf]
    simp [finishedClamped]
  · rw [finishCheck_stuck _ _ hf]
    exact h

theorem finishedClamped_stepTimer (c : Option String) (now : Int) (t : Timer)
    (h : finishedClamped t) : finishedClamped (stepTimer c now t) :=
  finishedClamped_finishCheck _ _
    (finishedClamped_resetStep _ _ (finishedClamped_pauseStep _ _ _ (finishedClamped_startStep _ _ _ h)))

theorem stepTimer_finished (c : Option String) (now : Int) (t : Timer)
    (h : t.state = .finished) (hc : c ≠ some "reset") :
    (stepTimer c now t).state = .finished := by
  have h1 : startStep c now t = t := by
    refine startStep_stuck _ _ _ ?_
    rw [h]
    simp
  have h2 : pauseStep c now t = t := by
    refine pauseStep_not_running _ _ _ ?_
    rw [h]
    simp
  show (finishCheck now (resetStep c (pauseStep c now (startStep c now t)))).state = .finished
  rw [h1, h2, resetStep_of_ne _ _ hc]
  by_cases hf : t.durationMs ≤ effectiveElapsed t now
  · rw [finishCheck_fires _ _ hf]
  · rw [finishCheck_stuck _ _ hf]
    exact h

/-- Preservation of a per-timer predicate by every `applyCommand` step. -/
theorem applyCommand_forall {P : Timer → Prop}
    (hstep : ∀ c now t, P t → P (stepTimer c now t))
    (hcreate : ∀ p now fid, P (createTimer p now fid))
    (b : Board) (body : Body) (now : Int) (fid : String)
    (hb : ∀ t ∈ b.timers, P t) :
    ∀ t ∈ (applyCommand b body now fid).timers, P t := by
  intro t ht
  unfold applyCommand at ht
  by_cases h1 : body.action = some "create"
  · rw [if_pos h1] at ht
    rcases List.mem_append.mp ht with h | h
    · exact hb t h
    · rw [List.mem_singleton.mp h]
      exact hcreate _ _ _
  · rw [if_neg h1] at ht
    by_cases h2 : body.action = some "command"
    · rw [if_pos h2] at ht
      by_cases h3 :
          (b.timers.find? (fun u => some u.id == (body.payload.getD Payload.empty).id)).isSome
            = true
      · rw [if_pos h3] at ht
        rcases mem_updateFirst ht with h | ⟨v, hv, rfl⟩
        · exact hb t h
        · exact hstep _ _ _ (hb v hv)
      · rw [if_neg h3] at ht
        exact hb t ht
    · rw [if_neg h2] at ht
      by_cases h4 : body.action = some "delete"
      · rw [if_pos h4] at ht
        exact hb t (List.mem_of_mem_filter ht)
      · rw [if_neg h4] at ht
        exact hb t ht

/-! ### Computation lemmas for `effectiveElapsed` and `stepTimer` -/

theorem effectiveElapsed_running (t : Timer) (now s : Int)
    (h1 : t.state = .running) (h2 : t.startedAt = some s) :
    effectiveElapsed t now = t.elapsedMs + (now - s) := by
  unfold effectiveElapsed
  rw [h1, h2]

theorem effectiveElapsed_not_running (t : Timer) (now : Int) (h : t.state ≠ .running) :
    effectiveElapsed t now = t.elapsedMs := by
  obtain ⟨i, lb, dm, st, ca, ua, sa, el⟩ := t
  unfold effectiveElapsed
  cases st with
  | running => exact absurd rfl h
  | idle => cases sa <;> rfl
  | paused => cases sa <;> rfl
  | finished => cases sa <;> rfl

theorem stepTimer_pause_finish (now s : Int) (t : Timer)
    (hrun : t.state = .running) (hsa : t.startedAt = some s)
    (hdur : t.durationMs ≤ t.elapsedMs + (now - s)) :
    stepTimer (some "pause") now t
      = { t with state := .finished, startedAt := none, elapsedMs := t.durationMs,
                 updatedAt := now } := by
  have h1 : startStep (some "pause") now t = t := startStep_of_ne _ _ _ (by decide)
  have h2 := pauseStep_fires now s t hrun hsa
  have hcond :
      ({ t with elapsedMs := t.elapsedMs + (now - s), startedAt := none,
                state := TimerState.paused } : Timer).durationMs
        ≤ effectiveElapsed
            { t with elapsedMs := t.elapsedMs + (now - s), startedAt := none,
                     state := TimerState.paused } now := by
    rw [effectiveElapsed_not_running _ _
          (by show TimerState.paused ≠ TimerState.running; decide)]
    show t.durationMs ≤ t.elapsedMs + (now - s)
    exact hdur
  rw [stepTimer_eq, h1, h2,
      resetStep_of_ne _ _ (show (some "pause" : Option String) ≠ some "reset" by decide),
      finishCheck_fires _ _ hcond]

theorem stepTimer_start_fresh (now : Int) (t : Timer)
    (hstate : t.state = .idle ∨ t.state = .paused)
    (hlt : t.elapsedMs < t.durationMs) :
    stepTimer (some "start") now t
      = { t with startedAt := some now, state := .running, updatedAt := now } := by
  have h1 := startStep_fires now t hstate
  have hcond :
      ¬(({ t with startedAt := some now, state := TimerState.running } : Timer).durationMs
          ≤ effectiveElapsed { t with startedAt := some now, state := TimerState.running } now) := by
    rw [effectiveElapsed_running _ now now rfl rfl]
    show ¬(t.durationMs ≤ t.elapsedMs + (now - now))
    omega
  rw [stepTimer_eq, h1,
      pauseStep_of_ne _ _ _ (show (some "start" : Option String) ≠ some "pause" by decide),
      resetStep_of_ne _ _ (show (some "start" : Option String) ≠ some "reset" by decide),
      finishCheck_stuck _ _ hcond]

theorem stepTimer_start_running (now s : Int) (t : Timer)
    (hrun : t.state = .running) (hsa : t.startedAt = some s)
    (hlt : t.elapsedMs + (now - s) < t.durationMs) :
    stepTimer (some "start") now t = { t with updatedAt := now } := by
  have h1 : startStep (some "start") now t = t := by
    refine startStep_stuck _ _ _ ?_
    rw [hrun]
    simp
  have hcond : ¬(t.durationMs ≤ effectiveElapsed t now) := by
    rw [effectiveElapsed_running t now s hrun hsa]
    omega
  rw [stepTimer_eq, h1,
      pauseStep_of_ne _ _ _ (show (some "start" : Option String) ≠ some "pause" by decide),
      resetStep_of_ne _ _ (show (some "start" : Option String) ≠ some "reset" by decide),
      finishCheck_stuck _ _ hcond]

theorem stepTimer_reset_pos (now : Int) (t : Timer) (hdur : 0 < t.durationMs) :
    stepTimer (some "reset") now t
      = { t with elapsedMs := 0, startedAt := none, state := .idle, updatedAt := now } := by
  have h1 : startStep (some "reset") now t = t :=
    startStep_of_ne _ _ _ (by decide)
  have h2 : pauseStep (some "reset") now t = t :=
    pauseStep_of_ne _ _ _ (by decide)
  have hcond :
      ¬(({ t with elapsedMs := 0, startedAt := none, state := TimerState.idle } : Timer).durationMs
          ≤ effectiveElapsed
              { t with elapsedMs := 0, startedAt := none, state := TimerState.idle } now) := by
    rw [effectiveElapsed_not_running _ _
          (by show TimerState.idle ≠ TimerState.running; decide)]
    show ¬(t.durationMs ≤ 0)
    omega
  rw [stepTimer_eq, h1, h2, resetStep_fires, finishCheck_stuck _ _ hcond]

theorem stepTimer_unknown (c : Option String) (now : Int) (t : Timer)
    (hc1 : c ≠ some "start") (hc2 : c ≠ some "pause") (hc3 : c ≠ some "reset") :
    stepTimer c now t = { finishCheck now t with updatedAt := now } := by
  rw [stepTimer_eq, startStep_of_ne _ _ _ hc1, pauseStep_of_ne _ _ _ hc2,
      resetStep_of_ne _ _ hc3]

/-! ### Claim theorems -/

/-- C1: pausing a running timer (with `startedAt` set) at a time `now`
at which `elapsedMs + (now - startedAt)` has reached `durationMs` yields
that timer with `state = finished` (not `paused`), `elapsedMs` clamped
exactly to `durationMs`, and `startedAt = null`; all other timers are
untouched. -/
theorem pause_past_duration_finishes
    (b : Board) (pre post : List Timer) (t : Timer) (s now : Int) (fid : String)
    (hsplit : b.timers = pre ++ t :: post)
    (hpre : ∀ u ∈ pre, u.id ≠ t.id)
    (hrun : t.state = .running)
    (hsa : t.startedAt = some s)
    (hdur : t.durationMs ≤ t.elapsedMs + (now - s)) :
    applyCommand b (cmdBody t.id "pause") now fid
      = { b with
          timers := pre ++
            { t with state := .finished, startedAt := none, elapsedMs := t.durationMs,
                     updatedAt := now } :: post } := by
  unfold cmdBody
  rw [applyCommand_cmd_split b pre post t (some "pause") now fid hsplit hpre,
      stepTimer_pause_finish now s t hrun hsa hdur]

/-- Witness for C1 at a concrete 5000ms timer started at 0 and paused at
6000. -/
theorem pause_past_duration_finishes_witness :
    (mkFix .running 5000 0 (some 0)).state = .running
      ∧ (mkFix .running 5000 0 (some 0)).startedAt = some 0
      ∧ (mkFix .running 5000 0 (some 0)).durationMs
          ≤ (mkFix .running 5000 0 (some 0)).elapsedMs + (6000 - 0)
      ∧ applyCommand { boardId := "B", timers := [mkFix .running 5000 0 (some 0)] }
            (cmdBody (mkFix .running 5000 0 (some 0)).id "pause") 6000 "x"
          = { boardId := "B",
              timers := [{ mkFix .running 5000 0 (some 0) with
                state := .finished, startedAt := none,
                elapsedMs := (mkFix .running 5000 0 (some 0)).durationMs,
                updatedAt := 6000 }] } :=
  ⟨rfl, rfl, by decide,
    pause_past_duration_finishes { boardId := "B", timers := [mkFix .running 5000 0 (some 0)] }
      [] [] (mkFix .running 5000 0 (some 0)) 0 6000 "x" rfl (by simp) rfl rfl (by decide)⟩

/-- C2: the invariant "startedAt is non-null iff state = running" is
preserved by `applyCommand` for every body (create, command with any
sub-command, delete, unknown). -/
theorem running_iff_startedAt_preserved (b : Board) (body : Body) (now : Int) (fid : String)
    (hb : ∀ t ∈ b.timers, wfTimer t) :
    ∀ t ∈ (applyCommand b body now fid).timers, wfTimer t :=
  applyCommand_forall wfTimer_stepTimer
    (fun p now fid => by simp [wfTimer, createTimer]) b body now fid hb

/-- Witness for C2 on a concrete well-formed board and a start command. -/
theorem running_iff_startedAt_preserved_witness :
    (∀ t ∈ ({ boardId := "B", timers := [mkFix .idle 5000 0 none] } : Board).timers, wfTimer t)
      ∧ ∀ t ∈ (applyCommand { boardId := "B", timers := [mkFix .idle 5000 0 none] }
          (cmdBody "t1" "start") 3 "x").timers, wfTimer t :=
  ⟨by decide,
    running_iff_startedAt_preserved { boardId := "B", timers := [mkFix .idle 5000 0 none] }
      (cmdBody "t1" "start") 3 "x" (by decide)⟩

/-- C3: on every board reachable from the empty board, a finished timer
has `elapsedMs` not exceeding `durationMs`, and in fact exactly equal to
it (set by the auto-finish clamp and preserved until reset or delete). -/
theorem reachable_finished_clamped {bid : String} {b : Board} (h : Reachable bid b) :
    ∀ t ∈ b.timers, t.state = .finished →
      t.elapsedMs ≤ t.durationMs ∧ t.elapsedMs = t.durationMs := by
  have key : ∀ t ∈ b.timers, finishedClamped t := by
    induction h with
    | empty => intro t ht; simp [emptyBoard] at ht
    | step b body now fid hb ih =>
        exact applyCommand_forall finishedClamped_stepTimer
          (fun p now fid => by simp [finishedClamped, createTimer]) b body now fid ih
  intro t ht hf
  exact ⟨le_of_eq (key t ht hf), key t ht hf⟩

/-- Witness for C3: the board obtained by creating a 0ms timer and then
starting it (which auto-finishes immediately) is reachable and its
finished timer is clamped. -/
theorem reachable_finished_clamped_witness :
    ({ id := "a", label := "Timer", durationMs := 0, state := .finished, createdAt := 0,
       updatedAt := 0, startedAt := none, elapsedMs := 0 } : Timer)
        ∈ (applyCommand (applyCommand (emptyBoard "B") ⟨some "create", some Payload.empty⟩ 0 "a")
            (cmdBody "a" "start") 0 "z").timers
      ∧ ({ id := "a", label := "Timer", durationMs := 0, state := .finished, createdAt := 0,
            updatedAt := 0, startedAt := none, elapsedMs := 0 } : Timer).elapsedMs
          ≤ ({ id := "a", label := "Timer", durationMs := 0, state := .finished, createdAt := 0,
                updatedAt := 0, startedAt := none, elapsedMs := 0 } : Timer).durationMs
      ∧ ({ id := "a", label := "Timer", durationMs := 0, state := .finished, createdAt := 0,
            updatedAt := 0, startedAt := none, elapsedMs := 0 } : Timer).elapsedMs
          = ({ id := "a", label := "Timer", durationMs := 0, state := .finished, createdAt := 0,
                updatedAt := 0, startedAt := none, elapsedMs := 0 } : Timer).durationMs :=
  ⟨by decide,
    (@reachable_finished_clamped "B" _
        (Reachable.step _ (cmdBody "a" "start") 0 "z"
          (Reachable.step _ ⟨some "create", some Payload.empty⟩ 0 "a" Reachable.empty))
        _ (by decide) rfl).1,
    (@reachable_finished_clamped "B" _
        (Reachable.step _ (cmdBody "a" "start") 0 "z"
          (Reachable.step _ ⟨some "create", some Payload.empty⟩ 0 "a" Reachable.empty))
        _ (by decide) rfl).2⟩

/-- C4 counterexample: a `command` action with an unrecognized
sub-command targeting an existing timer does not return the board
unchanged — `updatedAt` of the targeted timer is refreshed (and the
auto-finish check may even change its state). -/
theorem unknown_subcommand_changes_board_cex :
    applyCommand { boardId := "B", timers := [mkFix .idle 5000 0 none] }
        (cmdBody "t1" "bogus") 7 "x"
      ≠ { boardId := "B", timers := [mkFix .idle 5000 0 none] } := by
  decide

/-- C4 (amended): `applyCommand` is a total function; an unknown action
and a `command` whose payload id matches no timer return the board
unchanged; a `command` with an unrecognized sub-command performs no
sub-command transition, but still runs the auto-finish check on the
targeted timer and refreshes its `updatedAt`. -/
theorem malformed_input_behaviour :
    (∀ (b : Board) (body : Body) (now : Int) (fid : String),
        body.action ≠ some "create" → body.action ≠ some "command" →
        body.action ≠ some "delete" → applyCommand b body now fid = b)
    ∧ (∀ (b : Board) (pl : Option Payload) (now : Int) (fid : String),
        b.timers.find? (fun t => some t.id == (pl.getD Payload.empty).id) = none →
        applyCommand b ⟨some "command", pl⟩ now fid = b)
    ∧ (∀ (c : Option String) (now : Int) (t : Timer),
        c ≠ some "start" → c ≠ some "pause" → c ≠ some "reset" →
        stepTimer c now t = { finishCheck now t with updatedAt := now }) :=
  ⟨fun b body now fid h1 h2 h3 => applyCommand_other b body now fid h1 h2 h3,
   fun b pl now fid h => applyCommand_cmd_notfound b pl now fid h,
   fun c now t h1 h2 h3 => stepTimer_unknown c now t h1 h2 h3⟩

/-- Witness for C4 (amended) at concrete no-op inputs and a concrete
unrecognized sub-command. -/
theorem malformed_input_behaviour_witness :
    applyCommand { boardId := "B", timers := [mkFix .idle 5000 0 none] }
        ⟨some "frobnicate", none⟩ 3 "n"
      = { boardId := "B", timers := [mkFix .idle 5000 0 none] }
    ∧ applyCommand { boardId := "B", timers := [mkFix .idle 5000 0 none] }
        (cmdBody "zz" "start") 3 "n"
      = { boardId := "B", timers := [mkFix .idle 5000 0 none] }
    ∧ stepTimer (some "bogus") 7 (mkFix .idle 5000 0 none)
      = { finishCheck 7 (mkFix .idle 5000 0 none) with updatedAt := 7 } :=
  ⟨malformed_input_behaviour.1 _ ⟨some "frobnicate", none⟩ 3 "n"
      (by decide) (by decide) (by decide),
   malformed_input_behaviour.2.1 { boardId := "B", timers := [mkFix .idle 5000 0 none] }
      (some ⟨none, none, some "zz", some "start"⟩) 3 "n" (by decide),
   malformed_input_behaviour.2.2 (some "bogus") 7 (mkFix .idle 5000 0 none)
      (by decide) (by decide) (by decide)⟩

/-- C5 counterexample: on a timer with `durationMs = 0`, `reset` does
not leave `state = idle` — the auto-finish check fires immediately
(`0 ≥ 0`) and forces `state = finished`. -/
theorem reset_not_always_idle_cex :
    ((applyCommand { boardId := "B", timers := [mkFix .paused 0 3 none] }
        (cmdBody "t1" "reset") 7 "x").timers.map Timer.state) = [.finished] := by
  decide

/-- C5 (amended): for a timer with positive `durationMs`, a `reset`
command yields `state = idle`, `elapsedMs = 0`, `startedAt = null`
regardless of its prior state; when `durationMs ≤ 0` the auto-finish
check fires right after the rewind and forces `state = finished`
instead. -/
theorem reset_rewinds
    (b : Board) (pre post : List Timer) (t : Timer) (now : Int) (fid : String)
    (hsplit : b.timers = pre ++ t :: post)
    (hpre : ∀ u ∈ pre, u.id ≠ t.id)
    (hdur : 0 < t.durationMs) :
    applyCommand b (cmdBody t.id "reset") now fid
      = { b with
          timers := pre ++
            { t with elapsedMs := 0, startedAt := none, state := .idle,
                     updatedAt := now } :: post } := by
  unfold cmdBody
  rw [applyCommand_cmd_split b pre post t (some "reset") now fid hsplit hpre,
      stepTimer_reset_pos now t hdur]

/-- Witness for C5 (amended) on a concrete finished timer with positive
duration. -/
theorem reset_rewinds_witness :
    0 < (mkFix .finished 5000 5000 none).durationMs
      ∧ applyCommand { boardId := "B", timers := [mkFix .finished 5000 5000 none] }
            (cmdBody (mkFix .finished 5000 5000 none).id "reset") 9 "x"
          = { boardId := "B",
              timers := [{ mkFix .finished 5000 5000 none with
                elapsedMs := 0, startedAt := none, state := .idle, updatedAt := 9 }] } :=
  ⟨by decide,
    reset_rewinds { boardId := "B", timers := [mkFix .finished 5000 5000 none] }
      [] [] (mkFix .finished 5000 5000 none) 9 "x" rfl (by simp) (by decide)⟩

/-- C6 counterexample: starting a 5000ms timer at time 0 and issuing a
second `start` at time 6000 (no intervening pause) does not leave it
running with the original `startedAt` — the auto-finish check fires on
the second command and the timer ends `finished` with `startedAt =
null`. -/
theorem start_twice_not_always_running_cex :
    ((applyCommand
        (applyCommand { boardId := "B", timers := [mkFix .idle 5000 0 none] }
          (cmdBody "t1" "start") 0 "x")
        (cmdBody "t1" "start") 6000 "y").timers.map Timer.state) = [.finished]
    ∧ ((applyCommand
        (applyCommand { boardId := "B", timers := [mkFix .idle 5000 0 none] }
          (cmdBody "t1" "start") 0 "x")
        (cmdBody "t1" "start") 6000 "y").timers.map Timer.startedAt) = [none] := by
  constructor
  · decide
  · decide

/-- C6 (amended): two consecutive `start` commands with no intervening
pause leave the timer running with `startedAt` equal to the first
start's clock value, provided the timer has not yet crossed its
duration at the second command (`elapsedMs + (n2 - n1) < durationMs`);
otherwise the auto-finish rule fires.  The second `start` performs no
sub-command transition; only `updatedAt` is refreshed. -/
theorem start_twice_idempotent
    (b : Board) (pre post : List Timer) (t : Timer) (n1 n2 : Int) (f1 f2 : String)
    (hsplit : b.timers = pre ++ t :: post)
    (hpre : ∀ u ∈ pre, u.id ≠ t.id)
    (hstate : t.state = .idle ∨ t.state = .paused)
    (h12 : n1 ≤ n2)
    (hlt : t.elapsedMs + (n2 - n1) < t.durationMs) :
    applyCommand (applyCommand b (cmdBody t.id "start") n1 f1) (cmdBody t.id "start") n2 f2
      = { b with
          timers := pre ++
            { t with state := .running, startedAt := some n1, updatedAt := n2 } :: post } := by
  have hlt1 : t.elapsedMs < t.durationMs := by omega
  unfold cmdBody
  rw [applyCommand_cmd_split b pre post t (some "start") n1 f1 hsplit hpre,
      stepTimer_start_fresh n1 t hstate hlt1]
  rw [applyCommand_cmd_split _ pre post
        { t with startedAt := some n1, state := .running, updatedAt := n1 }
        (some "start") n2 f2 rfl (fun u hu => hpre u hu)]
  rw [stepTimer_start_running n2 n1
        { t with startedAt := some n1, state := .running, updatedAt := n1 } rfl rfl
        (by show t.elapsedMs + (n2 - n1) < t.durationMs; exact hlt)]

/-- Witness for C6 (amended) on a concrete paused timer restarted twice
within its duration. -/
theorem start_twice_idempotent_witness :
    ((mkFix .paused 5000 1000 none).state = .idle ∨ (mkFix .paused 5000 1000 none).state = .paused)
      ∧ (10 : Int) ≤ 2000
      ∧ (mkFix .paused 5000 1000 none).elapsedMs + (2000 - 10)
          < (mkFix .paused 5000 1000 none).durationMs
      ∧ applyCommand
            (applyCommand { boardId := "B", timers := [mkFix .paused 5000 1000 none] }
              (cmdBody (mkFix .paused 5000 1000 none).id "start") 10 "x")
            (cmdBody (mkFix .paused 5000 1000 none).id "start") 2000 "y"
          = { boardId := "B",
              timers := [{ mkFix .paused 5000 1000 none with
                state := .running, startedAt := some 10, updatedAt := 2000 }] } :=
  ⟨Or.inr rfl, by decide, by decide,
    start_twice_idempotent { boardId := "B", timers := [mkFix .paused 5000 1000 none] }
      [] [] (mkFix .paused 5000 1000 none) 10 2000 "x" "y" rfl (by simp)
      (Or.inr rfl) (by decide) (by decide)⟩

/-- C7: the `finished` state is never entered by `create` (a fresh
timer is `idle` even with `durationMs = 0`); a finished timer stays
finished under every `applyCommand` step other than a `reset`
sub-command targeting its id, and a `delete` that does not match its id
keeps it (finished) in the board. -/
theorem finished_state_lifecycle :
    (∀ (b : Board) (pl : Option Payload) (now : Int) (fid : String),
        (applyCommand b ⟨some "create", pl⟩ now fid).timers
            = b.timers ++ [createTimer (pl.getD Payload.empty) now fid]
          ∧ (createTimer (pl.getD Payload.empty) now fid).state = .idle)
    ∧ (∀ (b : Board) (body : Body) (now : Int) (fid : String) (d : Timer) (i : Nat),
        body.action ≠ some "delete" →
        ((body.payload.getD Payload.empty).command = some "reset" →
          (body.payload.getD Payload.empty).id ≠ some ((b.timers.getD i d).id)) →
        i < b.timers.length →
        (b.timers.getD i d).state = .finished →
        ((applyCommand b body now fid).timers.getD i d).state = .finished)
    ∧ (∀ (b : Board) (pl : Option Payload) (now : Int) (fid : String) (u : Timer),
        u ∈ b.timers → some u.id ≠ (pl.getD Payload.empty).id →
        u ∈ (applyCommand b ⟨some "delete", pl⟩ now fid).timers) := by
  refine ⟨fun b pl now fid => ⟨by rw [applyCommand_create], rfl⟩, ?_, ?_⟩
  · intro b body now fid d i hdel hreset hi hfin
    obtain ⟨a, pl⟩ := body
    by_cases h1 : a = some "create"
    · subst h1
      rw [applyCommand_create]
      show ((b.timers ++ [createTimer (pl.getD Payload.empty) now fid]).getD i d).state
          = .finished
      rw [List.getD_append _ _ _ _ hi]
      exact hfin
    · by_cases h2 : a = some "command"
      · subst h2
        rw [applyCommand_command]
        by_cases h3 :
            (b.timers.find? (fun u => some u.id == (pl.getD Payload.empty).id)).isSome = true
        · rw [if_pos h3]
          show ((updateFirst (fun u => some u.id == (pl.getD Payload.empty).id)
              (stepTimer (pl.getD Payload.empty).command now) b.timers).getD i d).state
            = .finished
          by_cases hc : (pl.getD Payload.empty).command = some "reset"
          · have hne :
                (some ((b.timers.getD i d).id) == (pl.getD Payload.empty).id) = false := by
              rw [beq_eq_false_iff_ne]
              exact Ne.symm (hreset hc)
            rw [updateFirst_getD_of_false _ _ _ _ _ hne]
            exact hfin
          · rcases updateFirst_getD_cases (fun u => some u.id == (pl.getD Payload.empty).id)
                (stepTimer (pl.getD Payload.empty).command now) b.timers i d with he | he
            · rw [he]
              exact hfin
            · rw [he]
              exact stepTimer_finished _ _ _ hfin hc
        · rw [if_neg h3]
          exact hfin
      · by_cases h4 : a = some "delete"
        · exact absurd h4 hdel
        · rw [applyCommand_other _ _ _ _ h1 h2 h4]
          exact hfin
  · intro b pl now fid u hu hne
    rw [applyCommand_delete]
    show u ∈ b.timers.filter (fun t => !(some t.id == (pl.getD Payload.empty).id))
    rw [List.mem_filter]
    refine ⟨hu, ?_⟩
    rw [Bool.not_eq_true', beq_eq_false_iff_ne]
    exact hne

/-- Witness for C7: a 0ms `create` yields an idle timer; a `start` on a
finished timer leaves it finished; a `delete` of a different id keeps a
finished timer. -/
theorem finished_state_lifecycle_witness :
    ((applyCommand { boardId := "B", timers := [] } ⟨some "create", none⟩ 2 "n").timers
        = [] ++ [createTimer (Option.getD none Payload.empty) 2 "n"]
      ∧ (createTimer (Option.getD none Payload.empty) 2 "n").state = .idle)
    ∧ (((applyCommand { boardId := "B", timers := [mkFix .finished 5000 5000 none] }
          (cmdBody "t1" "start") 9 "x").timers.getD 0 (mkFix .finished 5000 5000 none)).state
        = .finished)
    ∧ (mkFix .finished 5000 5000 none
        ∈ (applyCommand { boardId := "B", timers := [mkFix .finished 5000 5000 none] }
            ⟨some "delete", some ⟨none, none, some "zz", none⟩⟩ 9 "x").timers) :=
  ⟨finished_state_lifecycle.1 { boardId := "B", timers := [] } none 2 "n",
   finished_state_lifecycle.2.1 { boardId := "B", timers := [mkFix .finished 5000 5000 none] }
      (cmdBody "t1" "start") 9 "x" (mkFix .finished 5000 5000 none) 0
      (by decide) (by decide) (by decide) (by decide),
   finished_state_lifecycle.2.2 { boardId := "B", timers := [mkFix .finished 5000 5000 none] }
      (some ⟨none, none, some "zz", none⟩) 9 "x" (mkFix .finished 5000 5000 none)
      (by decide) (by decide)⟩

/-- C8 counterexample: a `create` whose payload `durationMs` is the
number -5 stores `durationMs = -5` on the appended timer — the stored
value can be negative (`Number(x) || 0` only coerces NaN and 0). -/
theorem create_negative_duration_cex :
    ((applyCommand (emptyBoard "B")
          ⟨some "create", some ⟨none, some (.num (-5)), none, none⟩⟩ 0 "a").timers.map
        Timer.durationMs) = [-5]
      ∧ (-5 : Int) < 0 := by
  constructor
  · decide
  · decide

/-- C8 (amended): the appended timer's `durationMs` is the payload's
numeric value when one is given — including negative values — and 0
when the payload `durationMs` is absent or NaN. -/
theorem create_duration_coercion (b : Board) (pl : Option Payload) (now : Int) (fid : String) :
    (applyCommand b ⟨some "create", pl⟩ now fid).timers
        = b.timers ++ [createTimer (pl.getD Payload.empty) now fid]
      ∧ ((pl.getD Payload.empty).durationMs = none
          → (createTimer (pl.getD Payload.empty) now fid).durationMs = 0)
      ∧ ((pl.getD Payload.empty).durationMs = some .nan
          → (createTimer (pl.getD Payload.empty) now fid).durationMs = 0)
      ∧ (∀ n : Int, (pl.getD Payload.empty).durationMs = some (.num n)
          → (createTimer (pl.getD Payload.empty) now fid).durationMs = n) := by
  refine ⟨by rw [applyCommand_create], ?_, ?_, ?_⟩
  · intro h
    show numOrZero (toNumber (pl.getD Payload.empty).durationMs) = 0
    rw [h]
    rfl
  · intro h
    show numOrZero (toNumber (pl.getD Payload.empty).durationMs) = 0
    rw [h]
    rfl
  · intro n h
    show numOrZero (toNumber (pl.getD Payload.empty).durationMs) = n
    rw [h]
    rfl

/-- Witness for C8 (amended) at concrete payloads: absent, NaN and the
number 7. -/
theorem create_duration_coercion_witness :
    (applyCommand (emptyBoard "B") ⟨some "create", some ⟨none, none, none, none⟩⟩ 1 "a").timers
        = (emptyBoard "B").timers ++ [createTimer (Payload.mk none none none none) 1 "a"]
      ∧ (createTimer (Payload.mk none none none none) 1 "a").durationMs = 0
      ∧ (createTimer (Payload.mk none (some .nan) none none) 1 "b").durationMs = 0
      ∧ (createTimer (Payload.mk none (some (.num 7)) none none) 1 "c").durationMs = 7 :=
  ⟨(create_duration_coercion (emptyBoard "B") (some ⟨none, none, none, none⟩) 1 "a").1,
   (create_duration_coercion (emptyBoard "B") (some ⟨none, none, none, none⟩) 1 "a").2.1 rfl,
   (create_duration_coercion (emptyBoard "B") (some ⟨none, some .nan, none, none⟩) 1 "b").2.2.1 rfl,
   (create_duration_coercion (emptyBoard "B") (some ⟨none, some (.num 7), none, none⟩) 1 "c").2.2.2
      7 rfl⟩

/-- C9: `loadBoard` reads the key `"board:" + boardId`; a missing
stored value and a stored string the codec cannot parse both yield the
empty board `{boardId, timers: []}`, with no error surfaced (the
function is total). -/
theorem loadBoard_missing_or_unparseable (store : String → Option String)
    (parseBoard : String → Option Board) (bid : String) :
    boardKey bid = "board:" ++ bid
      ∧ (store (boardKey bid) = none → loadBoard store parseBoard bid = emptyBoard bid)
      ∧ (∀ raw, store (boardKey bid) = some raw → parseBoard raw = none →
          loadBoard store parseBoard bid = emptyBoard bid) := by
  refine ⟨rfl, ?_, ?_⟩
  · intro h
    unfold loadBoard
    rw [h]
  · intro raw h1 h2
    unfold loadBoard
    rw [h1]
    show (if raw = "" then emptyBoard bid
        else
          match parseBoard raw with
          | none => emptyBoard bid
          | some b => b)
      = emptyBoard bid
    by_cases hraw : raw = ""
    · rw [if_pos hraw]
    · rw [if_neg hraw, h2]

/-- Witness for C9 on a concrete empty store and a concrete store whose
value the codec rejects. -/
theorem loadBoard_missing_or_unparseable_witness :
    boardKey "b" = "board:" ++ "b"
      ∧ loadBoard (fun _ => none) (fun _ => none) "b" = emptyBoard "b"
      ∧ loadBoard (fun _ => some "junk") (fun _ => none) "b" = emptyBoard "b" :=
  ⟨(loadBoard_missing_or_unparseable (fun _ => none) (fun _ => none) "b").1,
   (loadBoard_missing_or_unparseable (fun _ => none) (fun _ => none) "b").2.1 rfl,
   (loadBoard_missing_or_unparseable (fun _ => some "junk") (fun _ => none) "b").2.2 "junk" rfl
      rfl⟩

/-- C10: frame conditions of `applyCommand`: the boardId is always
preserved; a `command` leaves every position whose timer id differs
from the payload id unchanged; `create` appends the new timer at the
end leaving the rest unchanged; `delete` yields a sublist of the input
(survivors unchanged, in order) containing every timer whose id differs
from the payload id. -/
theorem applyCommand_frame :
    (∀ (b : Board) (body : Body) (now : Int) (fid : String),
        (applyCommand b body now fid).boardId = b.boardId)
    ∧ (∀ (b : Board) (pl : Option Payload) (now : Int) (fid : String) (d : Timer) (i : Nat),
        (some ((b.timers.getD i d).id) == (pl.getD Payload.empty).id) = false →
        (applyCommand b ⟨some "command", pl⟩ now fid).timers.getD i d = b.timers.getD i d)
    ∧ (∀ (b : Board) (pl : Option Payload) (now : Int) (fid : String),
        (applyCommand b ⟨some "create", pl⟩ now fid).timers
          = b.timers ++ [createTimer (pl.getD Payload.empty) now fid])
    ∧ (∀ (b : Board) (pl : Option Payload) (now : Int) (fid : String),
        List.Sublist (applyCommand b ⟨some "delete", pl⟩ now fid).timers b.timers
          ∧ ∀ u ∈ b.timers, (some u.id == (pl.getD Payload.empty).id) = false →
              u ∈ (applyCommand b ⟨some "delete", pl⟩ now fid).timers) := by
  refine ⟨?_, ?_, fun b pl now fid => by rw [applyCommand_create], ?_⟩
  · intro b body now fid
    unfold applyCommand
    by_cases h1 : body.action = some "create"
    · rw [if_pos h1]
    · rw [if_neg h1]
      by_cases h2 : body.action = some "command"
      · rw [if_pos h2]
        by_cases h3 :
            (b.timers.find? (fun t => some t.id == (body.payload.getD Payload.empty).id)).isSome
              = true
        · rw [if_pos h3]
        · rw [if_neg h3]
      · rw [if_neg h2]
        by_cases h4 : body.action = some "delete"
        · rw [if_pos h4]
        · rw [if_neg h4]
  · intro b pl now fid d i hne
    rw [applyCommand_command]
    by_cases h3 :
        (b.timers.find? (fun u => some u.id == (pl.getD Payload.empty).id)).isSome = true
    · rw [if_pos h3]
      show (updateFirst (fun u => some u.id == (pl.getD Payload.empty).id)
          (stepTimer (pl.getD Payload.empty).command now) b.timers).getD i d
        = b.timers.getD i d
      exact updateFirst_getD_of_false _ _ _ _ _ hne
    · rw [if_neg h3]
  · intro b pl now fid
    rw [applyCommand_delete]
    constructor
    · show List.Sublist
        (b.timers.filter (fun t => !(some t.id == (pl.getD Payload.empty).id))) b.timers
      exact List.filter_sublist b.timers
    · intro u hu hne
      show u ∈ b.timers.filter (fun t => !(some t.id == (pl.getD Payload.empty).id))
      rw [List.mem_filter]
      refine ⟨hu, ?_⟩
      rw [Bool.not_eq_true']
      exact hne

/-- Witness for C10 at concrete boards: a `pause` targeting a different
id, a `create`, and a `delete` of a non-matching id. -/
theorem applyCommand_frame_witness :
    (applyCommand { boardId := "B", timers := [mkFix .idle 5000 0 none] }
        (cmdBody "zz" "pause") 4 "n").boardId
      = ({ boardId := "B", timers := [mkFix .idle 5000 0 none] } : Board).boardId
    ∧ (applyCommand { boardId := "B", timers := [mkFix .idle 5000 0 none] }
          (cmdBody "zz" "pause") 4 "n").timers.getD 0 (mkFix .idle 5000 0 none)
      = ({ boardId := "B", timers := [mkFix .idle 5000 0 none] } : Board).timers.getD 0
          (mkFix .idle 5000 0 none)
    ∧ (applyCommand { boardId := "B", timers := [mkFix .idle 5000 0 none] }
          ⟨some "create", none⟩ 4 "n").timers
      = ({ boardId := "B", timers := [mkFix .idle 5000 0 none] } : Board).timers
          ++ [createTimer (Option.getD none Payload.empty) 4 "n"]
    ∧ mkFix .idle 5000 0 none
        ∈ (applyCommand { boardId := "B", timers := [mkFix .idle 5000 0 none] }
            ⟨some "delete", some ⟨none, none, some "zz", none⟩⟩ 4 "n").timers :=
  ⟨applyCommand_frame.1 { boardId := "B", timers := [mkFix .idle 5000 0 none] }
      (cmdBody "zz" "pause") 4 "n",
   applyCommand_frame.2.1 { boardId := "B", timers := [mkFix .idle 5000 0 none] }
      (some ⟨none, none, some "zz", some "pause"⟩) 4 "n" (mkFix .idle 5000 0 none) 0 (by decide),
   applyCommand_frame.2.2.1 { boardId := "B", timers := [mkFix .idle 5000 0 none] } none 4 "n",
   (applyCommand_frame.2.2.2 { boardId := "B", timers := [mkFix .idle 5000 0 none] }
      (some ⟨none, none, some "zz", none⟩) 4 "n").2 (mkFix .idle 5000 0 none)
      (by decide) (by decide)⟩

end Timers
